import Mathlib

/-!
Shallow embedding of the streaming chat client
(`src/frontend/src/components/ChatInterface.tsx`,
`src/frontend/src/services/chatApi.ts` (`ChatApiService.sendMessage`),
`src/frontend/src/lib/utils.ts` (`storage`), `src/frontend/src/types/chat.ts`).

Conventions of the embedding:
* Byte chunks delivered by the HTTP body reader are `List Nat` (byte values).
* The WHATWG `TextDecoder` used with `decode(value, stream := true)` is modelled
  as an explicit byte-level UTF-8 state machine (`Utf8State`), including
  replacement-character emission for invalid bytes and the default stripping of
  a leading byte-order mark.
* JavaScript exceptions thrown inside `sendMessage`'s `try` block are converted
  by its `catch` into the `onError` callback; the embedding therefore returns a
  plain list of emitted callback events (`Ev`) and is a total function.
* `Date` instants are modelled as `Nat` milliseconds; the JSON-serialized
  string form of an instant is modelled by its decimal digit list.
-/

namespace ChatSpec

/-- `Message.role` from `types/chat.ts`: one of `user`, `assistant`, `questions`. -/
inductive Role where
  | user
  | assistant
  | questions
deriving DecidableEq

/-- `Message` from `types/chat.ts` (the fields the chat flow uses; the
optional quiz payload fields are carried only by `questions` messages and play
no part in the claims). `timestamp` is the creation instant in milliseconds. -/
structure Message where
  id : String
  content : String
  role : Role
  timestamp : Nat
deriving DecidableEq

/-- `ChatState` from `types/chat.ts`. -/
structure ChatState where
  messages : List Message
  isLoading : Bool
  isTyping : Bool
deriving DecidableEq

/-- `ChatRequest` from `types/chat.ts`, as built by `handleSendMessage`. -/
structure ChatRequest where
  developer_message : String
  user_message : String
  api_key : String
  model : String
  pdf_id : Option String
deriving DecidableEq

/-- The JavaScript `String.prototype.trim` whitespace set (WhiteSpace plus
LineTerminator): space, tab, LF, VT, FF, CR, NBSP, the Unicode space
separators used in practice, LS, PS, and ZWNBSP. -/
def isJsWhitespace (c : Char) : Bool :=
  c == ' ' || c == '\t' || c == '\n' || c == '\x0b' || c == '\x0c' || c == '\r' ||
  c == ' ' || c == ' ' || c == ' ' || c == ' ' || c == ' ' ||
  c == ' ' || c == ' ' || c == ' ' || c == ' ' || c == ' ' ||
  c == ' ' || c == ' ' || c == ' ' || c == ' ' || c == ' ' ||
  c == ' ' || c == ' ' || c == '　' || c == '﻿'

/-- JavaScript `s.trim()`: strip leading and trailing whitespace. -/
def jsTrim (s : String) : String :=
  String.mk (((s.data.dropWhile isJsWhitespace).reverse.dropWhile isJsWhitespace).reverse)

/-! ### WHATWG UTF-8 decoder (`TextDecoder` with `stream: true`) -/

/-- Decoder registers of the WHATWG UTF-8 decode algorithm: the partial code
point, how many continuation bytes are still needed, how many have been seen,
and the valid range for the next continuation byte. `needed = 0` means no
multi-byte sequence is pending. -/
structure Utf8State where
  codePoint : Nat
  needed : Nat
  seen : Nat
  lower : Nat
  upper : Nat
deriving DecidableEq

/-- The decoder's initial registers. -/
def Utf8State.init : Utf8State :=
  { codePoint := 0, needed := 0, seen := 0, lower := 0x80, upper := 0xBF }

/-- Handle one byte in the `needed = 0` state: ASCII is emitted directly,
lead bytes open a multi-byte sequence (with the WHATWG boundary tightening for
`0xE0/0xED/0xF0/0xF4`), anything else yields U+FFFD. Returns the emitted code
points and the next state. -/
def utf8Start (b : Nat) : List Nat × Utf8State :=
  if b ≤ 0x7F then ([b], Utf8State.init)
  else if 0xC2 ≤ b ∧ b ≤ 0xDF then
    ([], { codePoint := b % 32, needed := 1, seen := 0, lower := 0x80, upper := 0xBF })
  else if 0xE0 ≤ b ∧ b ≤ 0xEF then
    ([], { codePoint := b % 16, needed := 2, seen := 0,
           lower := if b = 0xE0 then 0xA0 else 0x80,
           upper := if b = 0xED then 0x9F else 0xBF })
  else if 0xF0 ≤ b ∧ b ≤ 0xF4 then
    ([], { codePoint := b % 8, needed := 3, seen := 0,
           lower := if b = 0xF0 then 0x90 else 0x80,
           upper := if b = 0xF4 then 0x8F else 0xBF })
  else ([0xFFFD], Utf8State.init)

/-- One step of the WHATWG UTF-8 decoder on byte `b`. An invalid continuation
byte emits U+FFFD and is then reprocessed as a fresh lead byte (the algorithm's
"restore byte to stream"). -/
def utf8Step (st : Utf8State) (b : Nat) : List Nat × Utf8State :=
  if st.needed = 0 then utf8Start b
  else if st.lower ≤ b ∧ b ≤ st.upper then
    (let cp := st.codePoint * 64 + b % 64
     if st.seen + 1 = st.needed then ([cp], Utf8State.init)
     else ([], { codePoint := cp, needed := st.needed, seen := st.seen + 1,
                 lower := 0x80, upper := 0xBF }))
  else
    (let r := utf8Start b
     (0xFFFD :: r.1, r.2))

/-- Full decoder state: the UTF-8 registers plus whether the first code point
of the stream has already been produced (`TextDecoder`'s default
`ignoreBOM = false` drops a leading U+FEFF). -/
structure DecoderState where
  utf8 : Utf8State
  bomSeen : Bool
deriving DecidableEq

/-- Fresh-decoder state, as built by `new TextDecoder()`. -/
def DecoderState.init : DecoderState :=
  { utf8 := Utf8State.init, bomSeen := false }

/-- Drop a leading U+FEFF the first time any code point is produced
(`ignoreBOM = false` default behaviour). -/
def stripLeadingBOM : Bool → List Nat → Bool × List Nat
  | false, [] => (false, [])
  | false, c :: rest => (true, if c = 0xFEFF then rest else c :: rest)
  | true, cs => (true, cs)

/-- Decode one byte chunk in streaming mode: bytes of an incomplete trailing
sequence stay pending in the returned state (this is `decode(value,
stream := true)`; no end-of-input flush happens here). -/
def decodeBytes : DecoderState → List Nat → List Nat × DecoderState
  | st, [] => ([], st)
  | st, b :: rest =>
    (let r := utf8Step st.utf8 b
     let f := stripLeadingBOM st.bomSeen r.1
     let tail := decodeBytes { utf8 := r.2, bomSeen := f.1 } rest
     (f.2 ++ tail.1, tail.2))

/-- Code points to a Lean string (the decoder only produces scalar values). -/
def stringOfCodePoints (cps : List Nat) : String :=
  String.mk (cps.map Char.ofNat)

/-- `decoder.decode(value, { stream: true })`: the decoded text of one chunk
plus the carried-over decoder state. -/
def decodeChunkStr (st : DecoderState) (bytes : List Nat) : String × DecoderState :=
  (stringOfCodePoints (decodeBytes st bytes).1, (decodeBytes st bytes).2)

/-- The text decoding of a whole chunk sequence's concatenation, as one
streaming decode from a fresh decoder (the reference value the spec's
concatenation law talks about). -/
def decodeConcat (chunks : List (List Nat)) : String :=
  (decodeChunkStr DecoderState.init chunks.flatten).1

/-! ### `ChatApiService.sendMessage` (`services/chatApi.ts`) -/

/-- How the body stream ends: normal exhaustion (`done = true`) or a rejected
`reader.read()` carrying an error message. -/
inductive StreamEnd where
  | eof
  | readError (msg : String)
deriving DecidableEq

/-- One resolved `fetch` exchange as `sendMessage` observes it: the response
flag/status, whether `response.body` yields a reader, and the byte chunks the
reader delivers before the stream ends. -/
structure Transport where
  ok : Bool
  status : Nat
  hasBody : Bool
  chunks : List (List Nat)
  ending : StreamEnd
deriving DecidableEq

/-- A callback invocation performed by `sendMessage`: `onChunk`, `onComplete`
or `onError`. -/
inductive Ev where
  | chunk (s : String)
  | complete
  | error (msg : String)
deriving DecidableEq

/-- Whether an event is a terminal callback (`onComplete` or `onError`). -/
def Ev.isTerminal : Ev → Bool
  | .chunk _ => false
  | .complete => true
  | .error _ => true

/-- The `while (true)` read loop of `sendMessage`: each delivered chunk is
decoded in streaming mode, appended to `buffer`, and passed to `onChunk`; on
`done`, `if (buffer.trim()) onChunk(buffer)` then `onComplete()`; a rejected
read is caught and routed to `onError`. -/
def readLoop : DecoderState → String → List (List Nat) → StreamEnd → List Ev
  | _, buffer, [], StreamEnd.eof =>
    (if jsTrim buffer ≠ "" then [Ev.chunk buffer] else []) ++ [Ev.complete]
  | _, _, [], StreamEnd.readError m => [Ev.error m]
  | dec, buffer, value :: rest, e =>
    (let r := decodeChunkStr dec value
     Ev.chunk r.1 :: readLoop r.2 (buffer ++ r.1) rest e)

/-- `ChatApiService.sendMessage`, as the list of callback invocations it
performs for a given transport outcome. A non-ok response throws
`HTTP error! status: S`, a missing body reader throws
`No response body reader available`; both throws (and a rejected read) are
converted to `onError` by the surrounding `catch`, so the function is total. -/
def sendMessage (t : Transport) : List Ev :=
  if t.ok = false then [Ev.error ("HTTP error! status: " ++ toString t.status)]
  else if t.hasBody = false then [Ev.error "No response body reader available"]
  else readLoop DecoderState.init "" t.chunks t.ending

/-! ### `handleSendMessage` and its callbacks (`ChatInterface.tsx`) -/

/-- Rewrite the content of every message whose `id` matches (the
`prev.messages.map(msg => msg.id === id ? { ...msg, content } : msg)`
pattern used by the `onChunk` and `onError` callbacks). -/
def setContentById (aid newContent : String) (msgs : List Message) : List Message :=
  msgs.map fun m => if m.id = aid then { m with content := newContent } else m

/-- The `onChunk` callback: `assistantContent += chunk` (the closure
accumulator `acc`), then republish the in-flight message with the accumulated
content. Returns the new accumulator and the new state. -/
def onChunkStep (aid : String) (acc chunk : String) (st : ChatState) : String × ChatState :=
  (acc ++ chunk,
   { st with messages := setContentById aid (acc ++ chunk) st.messages })

/-- Run `sendMessage`'s emitted events through the three callbacks of
`handleSendMessage`, threading the `assistantContent` closure variable. -/
def runEvents (aid : String) : String → ChatState → List Ev → ChatState
  | _, st, [] => st
  | acc, st, Ev.chunk s :: evs =>
    (let r := onChunkStep aid acc s st
     runEvents aid r.1 r.2 evs)
  | acc, st, Ev.complete :: evs =>
    runEvents aid acc { st with isLoading := false, isTyping := false } evs
  | acc, st, Ev.error m :: evs =>
    runEvents aid acc
      { st with messages := setContentById aid ("Error: " ++ m) st.messages,
                isLoading := false, isTyping := false } evs

/-- Result of one `handleSendMessage` call: the final component state and the
list of network requests it issued. -/
structure SendOutcome where
  state : ChatState
  requests : List ChatRequest
deriving DecidableEq

/-- `handleSendMessage`: guard on trimmed input and API key; append the user
message and set both flags; append the empty assistant placeholder; issue the
request and fold the resulting callback events. `uid`/`aid` are the two
generated message ids, `tU`/`tA` the two creation instants. -/
def handleSendMessage (st : ChatState) (inputMessage apiKey developerMessage : String)
    (selectedPDFId : Option String) (uid aid : String) (tU tA : Nat)
    (t : Transport) : SendOutcome :=
  if jsTrim inputMessage = "" ∨ jsTrim apiKey = "" then { state := st, requests := [] }
  else
    (let userMessage : Message :=
       { id := uid, content := jsTrim inputMessage, role := Role.user, timestamp := tU }
     let st1 : ChatState :=
       { st with messages := st.messages ++ [userMessage], isLoading := true, isTyping := true }
     let assistantMessage : Message :=
       { id := aid, content := "", role := Role.assistant, timestamp := tA }
     let st2 : ChatState := { st1 with messages := st1.messages ++ [assistantMessage] }
     let req : ChatRequest :=
       { developer_message := developerMessage, user_message := userMessage.content,
         api_key := apiKey, model := "gpt-4o-mini", pdf_id := selectedPDFId }
     { state := runEvents aid "" st2 (sendMessage t), requests := [req] })

/-! ### Local persistence (`lib/utils.ts` `storage`, mount effect) -/

/-- A message as it sits in `localStorage` after `JSON.stringify`: strings and
the role survive verbatim, the `Date` is serialized to its string form,
modelled by the decimal digit list of the millisecond instant. -/
structure StoredMessage where
  id : String
  content : String
  role : Role
  timestampDigits : List Nat
deriving DecidableEq

/-- Serialize an instant to its stored string form (decimal digits). -/
def serializeTimestamp (ms : Nat) : List Nat := Nat.digits 10 ms

/-- `new Date(msg.timestamp)`: parse the stored string form back to an
instant. -/
def parseTimestamp (s : List Nat) : Nat := Nat.ofDigits 10 s

/-- One message through `JSON.stringify`. -/
def storedOfMessage (m : Message) : StoredMessage :=
  { id := m.id, content := m.content, role := m.role,
    timestampDigits := serializeTimestamp m.timestamp }

/-- One stored message through `JSON.parse` plus the mount effect's
`timestamp: new Date(msg.timestamp)` coercion. -/
def messageOfStored (sm : StoredMessage) : Message :=
  { id := sm.id, content := sm.content, role := sm.role,
    timestamp := parseTimestamp sm.timestampDigits }

/-- The `chat-history` slot of `localStorage`: absent, or a stored list. -/
def Store : Type := Option (List StoredMessage)

/-- `storage.saveChatHistory`: overwrite the slot with the serialized list. -/
def saveChatHistory (_store : Store) (messages : List Message) : Store :=
  some (messages.map storedOfMessage)

/-- `storage.getChatHistory`: the parsed stored list, or `[]` when the key is
absent. -/
def getChatHistory (store : Store) : List StoredMessage :=
  Option.getD store []

/-- `storage.clearChatHistory`: remove the key. -/
def clearChatHistory (_store : Store) : Store := (none : Option (List StoredMessage))

/-- The messages a fresh session starts with: the mount effect loads the
stored history and re-parses each timestamp (the `length > 0` guard in the
source is a no-op because the pre-mount message list is empty). -/
def loadMessages (store : Store) : List Message :=
  (getChatHistory store).map messageOfStored

/-- `clearChatHistory` in `ChatInterface.tsx`: empty the in-memory sequence
and remove the persisted copy. -/
def clearChatHistoryUI (st : ChatState) (store : Store) : ChatState × Store :=
  ({ st with messages := [] }, clearChatHistory store)

/-! ### The component's state updates (for the flag invariant) -/

/-- Every `setChatState` call site in `ChatInterface.tsx`, as an abstract
update: the mount-effect history load, the send-initiation append (user
message plus both flags true), the assistant-placeholder append, the `onChunk`
republish, the `onComplete` flag clear, the `onError` rewrite-and-clear, the
`catch` rewrite-and-clear, and the history clear. -/
inductive UiUpdate where
  | loadHistory (msgs : List Message)
  | sendInit (userMessage : Message)
  | appendAssistant (assistantMessage : Message)
  | applyChunk (aid content : String)
  | complete
  | errorUpd (aid msg : String)
  | catchUpd (aid msg : String)
  | clearHistory

/-- Apply one `setChatState` update to the component state. -/
def applyUpdate (st : ChatState) : UiUpdate → ChatState
  | UiUpdate.loadHistory msgs => { st with messages := msgs }
  | UiUpdate.sendInit um =>
    { st with messages := st.messages ++ [um], isLoading := true, isTyping := true }
  | UiUpdate.appendAssistant am => { st with messages := st.messages ++ [am] }
  | UiUpdate.applyChunk aid c => { st with messages := setContentById aid c st.messages }
  | UiUpdate.complete => { st with isLoading := false, isTyping := false }
  | UiUpdate.errorUpd aid m =>
    { st with messages := setContentById aid ("Error: " ++ m) st.messages,
              isLoading := false, isTyping := false }
  | UiUpdate.catchUpd aid m =>
    { st with messages := setContentById aid ("Error: " ++ m) st.messages,
              isLoading := false, isTyping := false }
  | UiUpdate.clearHistory => { st with messages := [] }

/-- The component's initial state (`useState` initializer). -/
def initialChatState : ChatState :=
  { messages := [], isLoading := false, isTyping := false }

/-- The state after a sequence of updates from the initial state. -/
def runUpdates (us : List UiUpdate) : ChatState :=
  us.foldl applyUpdate initialChatState

/-- What an update writes to the `isLoading`/`isTyping` pair, if anything:
send-initiation writes `true` to both, the three terminal updates write
`false` to both, everything else leaves both untouched. -/
def flagWrite : UiUpdate → Option Bool
  | UiUpdate.sendInit _ => some true
  | UiUpdate.complete => some false
  | UiUpdate.errorUpd _ _ => some false
  | UiUpdate.catchUpd _ _ => some false
  | _ => none

/-- The last value written to the flag pair by `us`, starting from `d`. -/
def lastFlagWriteFrom (d : Bool) : List UiUpdate → Bool
  | [] => d
  | u :: us =>
    match flagWrite u with
    | none => lastFlagWriteFrom d us
    | some b => lastFlagWriteFrom b us

/-- The last value written to the flag pair, `false` if none ever was. -/
def lastFlagWrite (us : List UiUpdate) : Bool :=
  lastFlagWriteFrom false us

/-! ## Helper lemmas -/

/-- `setContentById` on a list ending in the targeted message rewrites exactly
that message, provided no earlier message carries the target id. -/
theorem setContentById_append_fresh (aid c : String) (xs : List Message) (m : Message)
    (hfresh : ∀ x ∈ xs, x.id ≠ aid) (hm : m.id = aid) :
    setContentById aid c (xs ++ [m]) = xs ++ [{ m with content := c }] := by
  unfold setContentById
  rw [List.map_append]
  have h1 : xs.map (fun x => if x.id = aid then { x with content := c } else x) = xs.map id :=
    List.map_congr_left (fun x hx => by simp [hfresh x hx])
  rw [h1, List.map_id]
  simp [hm]

/-- A pointwise property between a list and its image under a map. -/
theorem forall₂_map_self {α : Type} (f : α → α) (P : α → α → Prop) :
    ∀ l : List α, (∀ a ∈ l, P a (f a)) → List.Forall₂ P l (l.map f)
  | [], _ => List.Forall₂.nil
  | a :: t, h =>
    List.Forall₂.cons (h a (by simp))
      (forall₂_map_self f P t (fun x hx => h x (by simp [hx])))

/-- The read loop always ends in exactly one terminal event, placed last, and
that terminal is `onComplete` precisely when the stream ended by exhaustion. -/
theorem readLoop_split (cs : List (List Nat)) :
    ∀ (dec : DecoderState) (buf : String) (e : StreamEnd),
      ∃ pre last, readLoop dec buf cs e = pre ++ [last] ∧
        (∀ x ∈ pre, Ev.isTerminal x = false) ∧
        Ev.isTerminal last = true ∧
        (last = Ev.complete ↔ e = StreamEnd.eof) := by
  induction cs with
  | nil =>
    intro dec buf e
    cases e with
    | eof =>
      refine ⟨if jsTrim buf ≠ "" then [Ev.chunk buf] else [], Ev.complete,
        by simp [readLoop], ?_, rfl, by simp⟩
      intro x hx
      by_cases h : jsTrim buf ≠ ""
      · simp [h] at hx
        simp [hx, Ev.isTerminal]
      · simp [h] at hx
    | readError m =>
      exact ⟨[], Ev.error m, by simp [readLoop], by simp, rfl, by simp⟩
  | cons c rest ih =>
    intro dec buf e
    obtain ⟨pre, last, heq, hpre, hterm, hiff⟩ :=
      ih (decodeChunkStr dec c).2 (buf ++ (decodeChunkStr dec c).1) e
    refine ⟨Ev.chunk (decodeChunkStr dec c).1 :: pre, last, by simp [readLoop, heq], ?_,
      hterm, hiff⟩
    intro x hx
    rcases List.mem_cons.mp hx with hx | hx
    · simp [hx, Ev.isTerminal]
    · exact hpre x hx

/-- Folding component updates preserves `isLoading = isTyping` and leaves the
flag pair equal to the last value any update wrote to it. -/
theorem foldl_applyUpdate_flags (us : List UiUpdate) :
    ∀ st : ChatState, st.isLoading = st.isTyping →
      (us.foldl applyUpdate st).isLoading = (us.foldl applyUpdate st).isTyping ∧
      (us.foldl applyUpdate st).isLoading = lastFlagWriteFrom st.isLoading us := by
  induction us with
  | nil => intro st h; exact ⟨h, rfl⟩
  | cons u rest ih =>
    intro st h
    cases u with
    | loadHistory msgs =>
      simpa [applyUpdate, flagWrite, lastFlagWriteFrom] using
        ih { st with messages := msgs } h
    | sendInit um =>
      simpa [applyUpdate, flagWrite, lastFlagWriteFrom] using
        ih { st with messages := st.messages ++ [um], isLoading := true, isTyping := true } rfl
    | appendAssistant am =>
      simpa [applyUpdate, flagWrite, lastFlagWriteFrom] using
        ih { st with messages := st.messages ++ [am] } h
    | applyChunk aid c =>
      simpa [applyUpdate, flagWrite, lastFlagWriteFrom] using
        ih { st with messages := setContentById aid c st.messages } h
    | complete =>
      simpa [applyUpdate, flagWrite, lastFlagWriteFrom] using
        ih { st with isLoading := false, isTyping := false } rfl
    | errorUpd aid m =>
      simpa [applyUpdate, flagWrite, lastFlagWriteFrom] using
        ih { st with messages := setContentById aid ("Error: " ++ m) st.messages,
                     isLoading := false, isTyping := false } rfl
    | catchUpd aid m =>
      simpa [applyUpdate, flagWrite, lastFlagWriteFrom] using
        ih { st with messages := setContentById aid ("Error: " ++ m) st.messages,
                     isLoading := false, isTyping := false } rfl
    | clearHistory =>
      simpa [applyUpdate, flagWrite, lastFlagWriteFrom] using
        ih { st with messages := [] } h

/-- Deserializing a serialized message is the identity. -/
theorem messageOfStored_storedOfMessage (m : Message) :
    messageOfStored (storedOfMessage m) = m := by
  cases m with
  | mk id content role timestamp =>
    simp [messageOfStored, storedOfMessage, parseTimestamp, serializeTimestamp,
      Nat.ofDigits_digits]

/-! ## Claim theorems -/

/-- C1 (the claim fails on the code): for a send whose HTTP response succeeds
and whose transport delivers the single byte chunk `[104, 105]` (the text
"hi"), the terminal content of the in-flight assistant message is `"hihi"`,
not the text decoding `"hi"` of the chunk concatenation — the read loop
accumulates every decoded chunk in a never-drained buffer and re-emits the
whole buffer as one more chunk at exhaustion. -/
theorem c1_final_content_doubles :
    ((handleSendMessage initialChatState "hello" "key" "dev" none "u1" "a1" 0 1
        { ok := true, status := 200, hasBody := true, chunks := [[104, 105]],
          ending := StreamEnd.eof }).state.messages.map Message.content) = ["hello", "hihi"] ∧
    decodeConcat [[104, 105]] = "hi" ∧ ("hihi" : String) ≠ "hi" := by decide

/-- C2 (the claim fails on the code): for a send whose stream delivers the
chunks `[104, 105]` ("hi") and `[226, 130]` (the first two bytes of a
three-byte character, left pending inside the decoder), the events emitted at
exhaustion are not a flush of the decoder's pending bytes: the code re-emits
the entire accumulated buffer `"hi"` as the final chunk, and the two pending
bytes (the decoder state still needs 2 continuation bytes) are dropped. -/
theorem c2_exhaustion_reemits_whole_buffer :
    sendMessage { ok := true, status := 200, hasBody := true,
                  chunks := [[104, 105], [226, 130]], ending := StreamEnd.eof } =
      [Ev.chunk "hi", Ev.chunk "", Ev.chunk "hi", Ev.complete] ∧
    (decodeBytes DecoderState.init ([104, 105] ++ [226, 130])).2.utf8.needed = 2 := by decide

/-- C3: for a send whose HTTP response has a non-success status `S`, no chunk
is read from the body (the only emitted callback is `onError`), the assistant
placeholder's content becomes exactly `"Error: HTTP error! status: "` followed
by `S`, both flags become false, and every message — the placeholder included
— stays in the sequence. -/
theorem c3_http_error_path (st : ChatState) (input apiKey dev : String)
    (pdf : Option String) (uid aid : String) (tU tA S : Nat) (hb : Bool)
    (cs : List (List Nat)) (e : StreamEnd)
    (hin : jsTrim input ≠ "") (hkey : jsTrim apiKey ≠ "")
    (hfresh : ∀ m ∈ st.messages, m.id ≠ aid) (hne : uid ≠ aid) :
    sendMessage { ok := false, status := S, hasBody := hb, chunks := cs, ending := e } =
      [Ev.error ("HTTP error! status: " ++ toString S)] ∧
    (handleSendMessage st input apiKey dev pdf uid aid tU tA
        { ok := false, status := S, hasBody := hb, chunks := cs, ending := e }).state =
      { messages := st.messages ++
          [{ id := uid, content := jsTrim input, role := Role.user, timestamp := tU },
           { id := aid, content := "Error: " ++ ("HTTP error! status: " ++ toString S),
             role := Role.assistant, timestamp := tA }],
        isLoading := false, isTyping := false } := by
  refine ⟨rfl, ?_⟩
  unfold handleSendMessage
  rw [if_neg (by simp [hin, hkey])]
  show runEvents aid "" _ (sendMessage _) = _
  show runEvents aid ""
      { messages := (st.messages ++ [_]) ++ [_], isLoading := true, isTyping := true } _ = _
  simp only [sendMessage, runEvents]
  have hx : ∀ x ∈ st.messages ++
      [{ id := uid, content := jsTrim input, role := Role.user, timestamp := tU }],
      Message.id x ≠ aid := by
    intro x hmem
    rcases List.mem_append.mp hmem with hmem | hmem
    · exact hfresh x hmem
    · simp at hmem
      simp [hmem, hne]
  have hset := setContentById_append_fresh aid
    ("Error: " ++ ("HTTP error! status: " ++ toString S))
    (st.messages ++
      [{ id := uid, content := jsTrim input, role := Role.user, timestamp := tU }])
    { id := aid, content := "", role := Role.assistant, timestamp := tA } hx rfl
  rw [hset]
  simp

/-- C3 witness. -/
theorem c3_http_error_path_witness :
    sendMessage { ok := false, status := 500, hasBody := true, chunks := [],
                  ending := StreamEnd.eof } =
      [Ev.error ("HTTP error! status: " ++ toString 500)] ∧
    (handleSendMessage initialChatState "hello" "key" "dev" none "u1" "a1" 0 1
        { ok := false, status := 500, hasBody := true, chunks := [],
          ending := StreamEnd.eof }).state =
      { messages := initialChatState.messages ++
          [{ id := "u1", content := jsTrim "hello", role := Role.user, timestamp := 0 },
           { id := "a1", content := "Error: " ++ ("HTTP error! status: " ++ toString 500),
             role := Role.assistant, timestamp := 1 }],
        isLoading := false, isTyping := false } :=
  c3_http_error_path initialChatState "hello" "key" "dev" none "u1" "a1" 0 1 500 true []
    StreamEnd.eof (by decide) (by decide) (by decide) (by decide)

/-- C4: a send whose user text is empty after trimming, or whose API key is
empty, leaves the state (message sequence included) unchanged and issues no
network request. -/
theorem c4_precondition_guard (st : ChatState) (input apiKey dev : String)
    (pdf : Option String) (uid aid : String) (tU tA : Nat) (t : Transport)
    (h : jsTrim input = "" ∨ apiKey = "") :
    handleSendMessage st input apiKey dev pdf uid aid tU tA t =
      { state := st, requests := [] } := by
  unfold handleSendMessage
  rw [if_pos]
  rcases h with h | h
  · exact Or.inl h
  · refine Or.inr ?_
    rw [h]
    decide

/-- C4 witness. -/
theorem c4_precondition_guard_witness :
    handleSendMessage initialChatState "   " "key" "dev" none "u1" "a1" 0 1
      { ok := true, status := 200, hasBody := true, chunks := [[104, 105]],
        ending := StreamEnd.eof } =
      { state := initialChatState, requests := [] } :=
  c4_precondition_guard initialChatState "   " "key" "dev" none "u1" "a1" 0 1
    { ok := true, status := 200, hasBody := true, chunks := [[104, 105]],
      ending := StreamEnd.eof } (by decide)

/-- C5: one chunk-application step of the `onChunk` callback keeps the message
sequence append-only: it publishes the accumulator extended by exactly this
chunk, leaves the flags alone, preserves the length, and relates old and new
sequences pointwise — ids, roles, timestamps and relative positions unchanged,
messages other than the in-flight one untouched, the in-flight message's
content replaced by the extended accumulator, and every message's content
growing by a (possibly empty) suffix. -/
theorem c5_chunk_step_append_only (aid acc s : String) (st : ChatState)
    (hacc : ∀ m ∈ st.messages, m.id = aid → m.content = acc) :
    (onChunkStep aid acc s st).1 = acc ++ s ∧
    (onChunkStep aid acc s st).2.isLoading = st.isLoading ∧
    (onChunkStep aid acc s st).2.isTyping = st.isTyping ∧
    (onChunkStep aid acc s st).2.messages.length = st.messages.length ∧
    List.Forall₂ (fun old new =>
        new.id = old.id ∧ new.role = old.role ∧ new.timestamp = old.timestamp ∧
        (old.id ≠ aid → new = old) ∧
        (old.id = aid → new.content = acc ++ s) ∧
        (∃ suffix, new.content = old.content ++ suffix))
      st.messages (onChunkStep aid acc s st).2.messages := by
  refine ⟨rfl, rfl, rfl, by simp [onChunkStep, setContentById], ?_⟩
  show List.Forall₂ _ st.messages (setContentById aid (acc ++ s) st.messages)
  unfold setContentById
  apply forall₂_map_self
  intro m hm
  by_cases hid : m.id = aid
  · rw [if_pos hid]
    exact ⟨rfl, rfl, rfl, fun h => absurd hid h, fun _ => rfl,
      ⟨s, by rw [hacc m hm hid]⟩⟩
  · rw [if_neg hid]
    exact ⟨rfl, rfl, rfl, fun _ => rfl, fun h => absurd h hid,
      ⟨"", (String.append_empty m.content).symm⟩⟩

/-- C5 witness. -/
theorem c5_chunk_step_append_only_witness :
    (onChunkStep "a1" "he" "llo"
        { messages :=
            [{ id := "u1", content := "question", role := Role.user, timestamp := 0 },
             { id := "a1", content := "he", role := Role.assistant, timestamp := 1 }],
          isLoading := true, isTyping := true }).1 = "he" ++ "llo" ∧
    (onChunkStep "a1" "he" "llo"
        { messages :=
            [{ id := "u1", content := "question", role := Role.user, timestamp := 0 },
             { id := "a1", content := "he", role := Role.assistant, timestamp := 1 }],
          isLoading := true, isTyping := true }).2.isLoading = true ∧
    (onChunkStep "a1" "he" "llo"
        { messages :=
            [{ id := "u1", content := "question", role := Role.user, timestamp := 0 },
             { id := "a1", content := "he", role := Role.assistant, timestamp := 1 }],
          isLoading := true, isTyping := true }).2.isTyping = true ∧
    (onChunkStep "a1" "he" "llo"
        { messages :=
            [{ id := "u1", content := "question", role := Role.user, timestamp := 0 },
             { id := "a1", content := "he", role := Role.assistant, timestamp := 1 }],
          isLoading := true, isTyping := true }).2.messages.length =
      ([{ id := "u1", content := "question", role := Role.user, timestamp := 0 },
        { id := "a1", content := "he", role := Role.assistant, timestamp := 1 }] :
        List Message).length ∧
    List.Forall₂ (fun old new =>
        new.id = old.id ∧ new.role = old.role ∧ new.timestamp = old.timestamp ∧
        (old.id ≠ "a1" → new = old) ∧
        (old.id = "a1" → new.content = "he" ++ "llo") ∧
        (∃ suffix, new.content = old.content ++ suffix))
      [{ id := "u1", content := "question", role := Role.user, timestamp := 0 },
       { id := "a1", content := "he", role := Role.assistant, timestamp := 1 }]
      (onChunkStep "a1" "he" "llo"
        { messages :=
            [{ id := "u1", content := "question", role := Role.user, timestamp := 0 },
             { id := "a1", content := "he", role := Role.assistant, timestamp := 1 }],
          isLoading := true, isTyping := true }).2.messages :=
  c5_chunk_step_append_only "a1" "he" "llo"
    { messages :=
        [{ id := "u1", content := "question", role := Role.user, timestamp := 0 },
         { id := "a1", content := "he", role := Role.assistant, timestamp := 1 }],
      isLoading := true, isTyping := true }
    (by decide)

/-- C6: in every state reachable by the component's `setChatState` updates,
`isLoading` equals `isTyping`, and their shared value equals the last value
any update wrote to the pair — `true` written only by send-initiation,
`false` only by the terminal complete/error/catch updates, so the flags are
true exactly between a send-initiation and the next terminal transition. -/
theorem c6_loading_equals_typing (us : List UiUpdate) :
    (runUpdates us).isLoading = (runUpdates us).isTyping ∧
    (runUpdates us).isLoading = lastFlagWrite us :=
  foldl_applyUpdate_flags us initialChatState rfl

/-- C7: for a send whose HTTP response succeeds and whose stream is exhausted
on the first read (zero chunks), the only callback is `onComplete`, the
assistant placeholder's content is the empty string in the terminal state, and
both flags become false. -/
theorem c7_zero_chunk_stream (st : ChatState) (input apiKey dev : String)
    (pdf : Option String) (uid aid : String) (tU tA S : Nat)
    (hin : jsTrim input ≠ "") (hkey : jsTrim apiKey ≠ "") :
    sendMessage { ok := true, status := S, hasBody := true, chunks := [],
                  ending := StreamEnd.eof } = [Ev.complete] ∧
    (handleSendMessage st input apiKey dev pdf uid aid tU tA
        { ok := true, status := S, hasBody := true, chunks := [],
          ending := StreamEnd.eof }).state =
      { messages := st.messages ++
          [{ id := uid, content := jsTrim input, role := Role.user, timestamp := tU },
           { id := aid, content := "", role := Role.assistant, timestamp := tA }],
        isLoading := false, isTyping := false } := by
  refine ⟨rfl, ?_⟩
  unfold handleSendMessage
  rw [if_neg (by simp [hin, hkey])]
  show runEvents aid ""
      { messages := (st.messages ++ [_]) ++ [_], isLoading := true, isTyping := true }
      (sendMessage _) = _
  simp only [sendMessage, runEvents]
  simp

/-- C7 witness. -/
theorem c7_zero_chunk_stream_witness :
    sendMessage { ok := true, status := 200, hasBody := true, chunks := [],
                  ending := StreamEnd.eof } = [Ev.complete] ∧
    (handleSendMessage initialChatState "hello" "key" "dev" none "u1" "a1" 0 1
        { ok := true, status := 200, hasBody := true, chunks := [],
          ending := StreamEnd.eof }).state =
      { messages := initialChatState.messages ++
          [{ id := "u1", content := jsTrim "hello", role := Role.user, timestamp := 0 },
           { id := "a1", content := "", role := Role.assistant, timestamp := 1 }],
        isLoading := false, isTyping := false } :=
  c7_zero_chunk_stream initialChatState "hello" "key" "dev" none "u1" "a1" 0 1 200
    (by decide) (by decide)

/-- C8: saving any message sequence to the persistence store and reloading it
(the mount effect re-parses each serialized timestamp back to an instant)
yields the original sequence — same length, identical content and role, and
timestamps equal to the original instants. -/
theorem c8_save_reload_roundtrip (store : Store) (msgs : List Message) :
    loadMessages (saveChatHistory store msgs) = msgs := by
  unfold loadMessages saveChatHistory getChatHistory
  rw [Option.getD_some, List.map_map]
  calc msgs.map (messageOfStored ∘ storedOfMessage)
      = msgs.map id :=
        List.map_congr_left (fun m _ => messageOfStored_storedOfMessage m)
    _ = msgs := List.map_id msgs

/-- C9: the clear-history operation empties the in-memory message sequence and
removes the persisted slot, so a subsequent session start loads zero
messages. -/
theorem c9_clear_history (st : ChatState) (store : Store) :
    (clearChatHistoryUI st store).1.messages = [] ∧
    (clearChatHistoryUI st store).2 = (none : Option (List StoredMessage)) ∧
    loadMessages (clearChatHistoryUI st store).2 = [] :=
  ⟨rfl, rfl, rfl⟩

/-- C10: every `sendMessage` invocation (the embedding's totality reflects
that the surrounding `catch` converts every internal throw into `onError`)
invokes exactly one terminal callback, exactly once, as the final callback;
the terminal is `onComplete` precisely when the response was ok, a body reader
was available, and the stream was read to exhaustion — and `onError` on every
failure path. -/
theorem c10_exactly_one_terminal (t : Transport) :
    ∃ pre last, sendMessage t = pre ++ [last] ∧
      (∀ x ∈ pre, Ev.isTerminal x = false) ∧
      Ev.isTerminal last = true ∧
      (last = Ev.complete ↔
        (t.ok = true ∧ t.hasBody = true ∧ t.ending = StreamEnd.eof)) := by
  rcases t with ⟨ok, status, hasBody, chunks, ending⟩
  cases ok with
  | false =>
    exact ⟨[], Ev.error ("HTTP error! status: " ++ toString status),
      by simp [sendMessage], by simp, rfl, by simp⟩
  | true =>
    cases hasBody with
    | false =>
      exact ⟨[], Ev.error "No response body reader available",
        by simp [sendMessage], by simp, rfl, by simp⟩
    | true =>
      obtain ⟨pre, last, heq, hpre, hterm, hiff⟩ :=
        readLoop_split chunks DecoderState.init "" ending
      exact ⟨pre, last, by simpa [sendMessage] using heq, hpre, hterm, by simpa using hiff⟩

end ChatSpec
